import Mathlib

/-!
Shallow embedding of the groundwater-command-center core
(service-a-operations): the Safe Yield admission-control engine
(`createLog` in the extraction controller), the CSV batch-ingestion
engines for water readings and rainfall, and the pipeline job
orchestrator (`triggerPipeline`).

JavaScript runtime behaviour that the controllers rely on (truthiness
of request fields, `parseFloat`, `x || default`) is modelled by small
explicit helpers below.
-/

namespace GW

/-- JS truthiness of a possibly-absent string: `undefined` and the empty
string are falsy, every other string is truthy. -/
def truthyStr : Option String → Bool
  | none => false
  | some s => s ≠ ""

/-- JS truthiness of a possibly-absent number: `undefined` and `0` are
falsy. -/
def truthyNum : Option ℚ → Bool
  | none => false
  | some v => v ≠ 0

/-- JS string coercion as it happens inside a template literal:
`undefined` prints as the string "undefined". -/
def jsStr : Option String → String
  | none => "undefined"
  | some s => s

/-- JS `x || d` on a possibly-absent string: the default is used when
`x` is `undefined` or the empty string. -/
def jsOrStr (x : Option String) (d : String) : String :=
  match x with
  | none => d
  | some s => if s = "" then d else s

/-- JS `x || d` on a possibly-absent number: the default is used when
`x` is `undefined` or `0`. -/
def jsOrNum (x : Option ℚ) (d : ℚ) : ℚ :=
  match x with
  | none => d
  | some v => if v = 0 then d else v

/-- Value of a decimal digit string, most significant first. -/
def digitsVal (l : List Char) : Nat :=
  l.foldl (fun acc c => acc * 10 + (c.toNat - ('0').toNat)) 0

/-- Model of the JS `parseFloat` builtin on ordinary decimal numerals:
skip leading whitespace, read an optional sign, then a maximal run of
digits, an optional point and a second run of digits; `none` models a
`NaN` result (no digit found at all, e.g. on `undefined` or a word). -/
def jsParseFloat (s : String) : Option ℚ :=
  let cs := s.data.dropWhile (fun c => c = ' ' || c = '\t' || c = '\n' || c = '\r')
  let signed : ℚ × List Char :=
    match cs with
    | '-' :: rest => (-1, rest)
    | '+' :: rest => (1, rest)
    | _ => (1, cs)
  let intPart := signed.2.takeWhile Char.isDigit
  let rest := signed.2.dropWhile Char.isDigit
  let fracPart : List Char :=
    match rest with
    | '.' :: r => r.takeWhile Char.isDigit
    | _ => []
  if intPart.isEmpty && fracPart.isEmpty then none
  else some (signed.1 * ((digitsVal intPart : ℚ) +
    (digitsVal fracPart : ℚ) / ((10 : ℚ) ^ fracPart.length)))

/-- A Region document of the `Region` mongoose model
(models/Region.model.js).  The schema defines `region_id`, `name`,
`state`, `critical_level`, `is_active` and `critical_water_level_m`
(default 10.0).  The extraction controller also reads
`aquifer_area_m2` and `specific_yield`, which the schema does NOT
define; under the default strict schema those reads yield `undefined`,
so they are carried as `Option` fields and are `none` on every
persisted document. -/
structure Region where
  region_id : String
  name : String
  state : String
  critical_level : ℚ
  is_active : Bool
  critical_water_level_m : ℚ
  aquifer_area_m2 : Option ℚ
  specific_yield : Option ℚ
deriving Repr, DecidableEq

end GW

namespace GW.Extraction

/-- One element of the forecast series returned by service B. -/
structure Forecast where
  predicted_level : ℚ
deriving Repr, DecidableEq

/-- Outcome of the `axios.get` call to service B inside `createLog`:
either the parsed response body (a forecast array) or a thrown error
(unreachable service, non-2xx, ...). -/
inductive ForecastResult where
  | ok (forecasts : List Forecast)
  | err
deriving Repr, DecidableEq

/-- Request body of `POST /api/v1/extraction` as destructured by
`createLog`; absent fields are `none` (JS `undefined`). -/
structure ExtractReq where
  region_id : Option String
  volume_liters : Option ℚ
  usage_type : Option String
deriving Repr, DecidableEq

/-- An ExtractionLog document as created by `ExtractionLog.create`. -/
structure ExtractionLog where
  region_id : String
  volume_liters : ℚ
  usage_type : Option String
deriving Repr, DecidableEq

/-- The responses `createLog` can produce: a thrown 400 (missing
fields), a thrown 404 (unknown region), the 409 denial with its
rationale payload, or the 201 success carrying the stored log. -/
inductive ExtractResponse where
  | badRequest
  | notFound
  | denied (predicted_level_next_7d : ℚ) (impact_of_extraction : ℚ)
      (critical_limit : ℚ) (area_m2 : ℚ) (specific_yield : ℚ)
  | created (log : ExtractionLog)
deriving Repr, DecidableEq

/-- `JS Math.min` over a spread array, as in
`Math.min(...forecasts.map(f => f.predicted_level))`; the controller
only calls it on a nonempty array (the empty case is unreachable). -/
def jsMin : List ℚ → ℚ
  | [] => 0
  | x :: xs => xs.foldl min x

/-- `region.aquifer_area_m2 || 1000000` from `createLog`. -/
def physArea (region : Region) : ℚ :=
  jsOrNum region.aquifer_area_m2 1000000

/-- `region.specific_yield || 0.15` from `createLog`. -/
def physSy (region : Region) : ℚ :=
  jsOrNum region.specific_yield 0.15

/-- The physics step of `createLog`: liters to cubic meters, divided by
(area times specific yield). -/
def estimatedDrop (region : Region) (volume_liters : ℚ) : ℚ :=
  let volume_m3 := volume_liters / 1000
  volume_m3 / (physArea region * physSy region)

/-- Shallow embedding of `createLog` (extraction controller).  Inputs:
the Region collection, the outcome of the forecast call, and the
request body.  Output: the HTTP response together with the
ExtractionLog document persisted by the call, if any. -/
def createLog (regions : List Region) (fc : ForecastResult)
    (req : ExtractReq) : ExtractResponse × Option ExtractionLog :=
  if !truthyStr req.region_id || !truthyNum req.volume_liters then
    (.badRequest, none)
  else
    match regions.find? (fun r => r.region_id = jsStr req.region_id) with
    | none => (.notFound, none)
    | some region =>
      let predictedLevel : Option ℚ :=
        match fc with
        | .err => none
        | .ok forecasts =>
          if forecasts.length > 0 then
            some (jsMin (forecasts.map Forecast.predicted_level))
          else none
      match predictedLevel with
      | some pl =>
        let drop := estimatedDrop region (req.volume_liters.getD 0)
        let finalLevel := pl - drop
        if finalLevel < region.critical_water_level_m then
          (.denied pl (-drop) region.critical_water_level_m
            (physArea region) (physSy region), none)
        else
          let log : ExtractionLog :=
            ⟨jsStr req.region_id, req.volume_liters.getD 0, req.usage_type⟩
          (.created log, some log)
      | none =>
        let log : ExtractionLog :=
          ⟨jsStr req.region_id, req.volume_liters.getD 0, req.usage_type⟩
        (.created log, some log)

/-- A log is persisted exactly on the 201 path: helper predicate used
to state the log/response correspondence. -/
def logOnlyOnCreate (p : ExtractResponse × Option ExtractionLog) : Prop :=
  match p with
  | (.created log, stored) => stored = some log
  | (_, stored) => stored = none

end GW.Extraction

namespace GW.Extraction

/-- The concrete Region of the worked example: critical threshold 10 m,
no stored aquifer area or specific yield (so the engine falls back to
1,000,000 m2 and 0.15). -/
def exampleRegion : Region :=
  { region_id := "R1", name := "North Basin", state := "S", critical_level := 10,
    is_active := true, critical_water_level_m := 10,
    aquifer_area_m2 := none, specific_yield := none }

end GW.Extraction

namespace GW.Ingest

/-- A parsed CSV row as produced by a csv-parser "data" event: an
association list from header name to cell text, in column order. -/
abbrev RawRow := List (String × String)

/-- Reading a property of the row object: `none` models `undefined`. -/
def getField (row : RawRow) (k : String) : Option String :=
  (row.find? (fun p => p.1 = k)).map Prod.snd

/-- The rainfall controller structural check on each data event:
`Object.keys(data).length === 1 && keys[0].includes(",")`, meaning the
parser failed to split the columns. -/
def isPseudoRow (row : RawRow) : Bool :=
  match row with
  | [(k, _)] => k.data.contains ','
  | _ => false

/-- The mutable `results` accumulator shared by both CSV controllers. -/
structure IngestResults where
  totalRows : Nat
  inserted : Nat
  failed : Nat
  errors : List (RawRow × String)
deriving Repr, DecidableEq

/-- State of one streaming ingestion run: the accumulator, the pending
batch, and the documents inserted into the history store so far. -/
structure StreamState (α : Type) where
  results : IngestResults
  batch : List RawRow
  store : List α
deriving Repr, DecidableEq

/-- Initial state of a run: zero counters, empty batch, nothing yet
written to the history store by this run. -/
def initState (α : Type) : StreamState α :=
  ⟨⟨0, 0, 0, []⟩, [], []⟩

end GW.Ingest

namespace GW.Readings

open GW.Ingest

/-- The projection of a Well document used by the bulk lookup
(`.select("well_id region_id")`). -/
structure Well where
  well_id : String
  region_id : String
deriving Repr, DecidableEq

/-- A WaterReading document as staged by the CSV controller; a `none`
timestamp stands for `new Date()` (time of ingestion). -/
structure WaterReading where
  well_id : String
  region_id : String
  water_level : ℚ
  source : String
  timestamp : Option String
deriving Repr, DecidableEq

/-- One iteration of the `for (const row of rows)` loop inside
`ingestReadingsCSV.processBatch`: reject on missing well/region key or
unparseable `water_level`, otherwise stage the normalized reading. -/
def batchStep (validWellMap : List String)
    (acc : IngestResults × List WaterReading) (row : RawRow) :
    IngestResults × List WaterReading :=
  let well_id := getField row "well_id"
  let region_id := getField row "region_id"
  let key := jsStr well_id ++ "|" ++ jsStr region_id
  if !validWellMap.contains key then
    ({ acc.1 with
        failed := acc.1.failed + 1
        errors := acc.1.errors ++ [(row, "Well/Region mismatch or not found")] },
     acc.2)
  else
    match jsParseFloat (jsStr (getField row "water_level")) with
    | none =>
      ({ acc.1 with
          failed := acc.1.failed + 1
          errors := acc.1.errors ++ [(row, "Invalid water_level")] },
       acc.2)
    | some level =>
      (acc.1,
       acc.2 ++ [{
         well_id := jsStr well_id
         region_id := jsStr region_id
         water_level := level
         source := jsOrStr (getField row "source") "csv_upload"
         timestamp := if truthyStr (getField row "timestamp") then
           getField row "timestamp" else none }])

/-- `ingestReadingsCSV.processBatch`: one bulk lookup of the batch
against the Well collection (both identifier columns restricted by
`$in`), a valid-key set, the per-row loop, then one `insertMany` of the
staged readings. -/
def processBatch (wells : List Well) (res : IngestResults)
    (store : List WaterReading) (rows : List RawRow) :
    IngestResults × List WaterReading :=
  let wellIds := rows.map (fun r => jsStr (getField r "well_id"))
  let regionIds := rows.map (fun r => jsStr (getField r "region_id"))
  let foundWells := wells.filter
    (fun w => wellIds.contains w.well_id && regionIds.contains w.region_id)
  let validWellMap := foundWells.map (fun w => w.well_id ++ "|" ++ w.region_id)
  let out := rows.foldl (batchStep validWellMap) (res, [])
  if out.2.length > 0 then
    ({ out.1 with inserted := out.1.inserted + out.2.length }, store ++ out.2)
  else
    (out.1, store)

/-- The "data" event handler of `ingestReadingsCSV`: count the row,
reject it on missing required columns (error sample capped at 50),
otherwise push it on the batch and flush the batch once it holds 500
rows. -/
def onData (wells : List Well) (st : StreamState WaterReading)
    (row : RawRow) : StreamState WaterReading :=
  let res := { st.results with totalRows := st.results.totalRows + 1 }
  if !truthyStr (getField row "well_id") || !truthyStr (getField row "region_id")
      || !truthyStr (getField row "water_level") then
      { st with results := { res with
        failed := res.failed + 1
        errors := if res.errors.length < 50 then
          res.errors ++ [(row, "Missing required columns")] else res.errors } }
  else
    let batch := st.batch ++ [row]
    if batch.length ≥ 500 then
      let out := processBatch wells res st.store batch
      { results := out.1, batch := [], store := out.2 }
    else
      { st with results := res, batch := batch }

/-- Shallow embedding of `ingestReadingsCSV` over the stream of parsed
rows: run the data handler over every row, flush the remaining partial
batch on stream end, and return the summary counters together with the
WaterReading documents inserted by the run. -/
def ingestReadingsCSV (wells : List Well) (rows : List RawRow) :
    IngestResults × List WaterReading :=
  let st := rows.foldl (onData wells) (initState WaterReading)
  if st.batch.length > 0 then
    processBatch wells st.results st.store st.batch
  else
    (st.results, st.store)

end GW.Readings

namespace GW.Rainfall

open GW.Ingest

/-- A Rainfall document as staged by the CSV controller; a `none`
timestamp stands for `new Date()`. -/
structure RainfallRecord where
  region_id : String
  amount_mm : ℚ
  source : String
  timestamp : Option String
deriving Repr, DecidableEq

/-- One iteration of the row loop inside `ingestRainfallCSV.processBatch`:
reject when the region key is not in the valid set or when `amount_mm`
does not parse or is negative, otherwise stage the normalized record. -/
def batchStep (validRegionSet : List String)
    (acc : IngestResults × List RainfallRecord) (row : RawRow) :
    IngestResults × List RainfallRecord :=
  let region_id := getField row "region_id"
  if !validRegionSet.contains (jsStr region_id) then
    ({ acc.1 with
        failed := acc.1.failed + 1
        errors := acc.1.errors ++ [(row, "Region not found or inactive")] },
     acc.2)
  else
    match jsParseFloat (jsStr (getField row "amount_mm")) with
    | none =>
      ({ acc.1 with
          failed := acc.1.failed + 1
          errors := acc.1.errors ++ [(row, "Invalid amount_mm")] },
       acc.2)
    | some amount =>
      if amount < 0 then
        ({ acc.1 with
            failed := acc.1.failed + 1
            errors := acc.1.errors ++ [(row, "Invalid amount_mm")] },
         acc.2)
      else
        (acc.1,
         acc.2 ++ [{
           region_id := jsStr region_id
           amount_mm := amount
           source := jsOrStr (getField row "source") "csv_upload"
           timestamp := if truthyStr (getField row "timestamp") then
             getField row "timestamp" else none }])

/-- `ingestRainfallCSV.processBatch`: early return on an empty batch,
one bulk lookup restricted to active regions, a valid-key set, the
per-row loop, then one `insertMany` of the staged records. -/
def processBatch (regions : List Region) (res : IngestResults)
    (store : List RainfallRecord) (rows : List RawRow) :
    IngestResults × List RainfallRecord :=
  if rows.length = 0 then (res, store)
  else
    let regionIds := rows.map (fun r => jsStr (getField r "region_id"))
    let foundRegions := regions.filter
      (fun r => regionIds.contains r.region_id && r.is_active)
    let validRegionSet := foundRegions.map Region.region_id
    let out := rows.foldl (batchStep validRegionSet) (res, [])
    if out.2.length > 0 then
      ({ out.1 with inserted := out.1.inserted + out.2.length }, store ++ out.2)
    else
      (out.1, store)

/-- The responses `ingestRainfallCSV` can send from its "close"
handler: the 400 "CSV Format Error" when the pseudo-field flag was
raised, or the 200 summary. -/
inductive RainResponse where
  | formatError
  | completed (total_rows inserted failed : Nat)
deriving Repr, DecidableEq

/-- The streaming loop of `ingestRainfallCSV`: on each data event,
first check for a pseudo-field (a single key containing the comma
delimiter); if found, destroy the stream, which fires the "close"
handler with the invalid-format flag set and answers 400 with no
further processing.  Otherwise count the row, apply the structural
check, batch it and flush full batches.  On stream end, flush the rest
and answer 200 with the summary counters. -/
def rainLoop (regions : List Region) (st : StreamState RainfallRecord) :
    List RawRow → RainResponse × List RainfallRecord
  | [] =>
    let out := if st.batch.length > 0 then
      processBatch regions st.results st.store st.batch
    else (st.results, st.store)
    (.completed out.1.totalRows out.1.inserted out.1.failed, out.2)
  | row :: rest =>
    if isPseudoRow row then
      (.formatError, st.store)
    else
      let res := { st.results with totalRows := st.results.totalRows + 1 }
      if !truthyStr (getField row "region_id")
          || !truthyStr (getField row "amount_mm") then
        rainLoop regions
          { st with results := { res with
              failed := res.failed + 1
              errors := if res.errors.length < 50 then
                res.errors ++ [(row, "Missing required columns (Check CSV headers)")]
              else res.errors } } rest
      else
        let batch := st.batch ++ [row]
        if batch.length ≥ 500 then
          let out := processBatch regions res st.store batch
          rainLoop regions { results := out.1, batch := [], store := out.2 } rest
        else
          rainLoop regions { st with results := res, batch := batch } rest

/-- Shallow embedding of `ingestRainfallCSV` over the stream of parsed
rows: the response sent from the "close" handler, together with the
Rainfall documents inserted by the run. -/
def ingestRainfallCSV (regions : List Region) (rows : List RawRow) :
    RainResponse × List RainfallRecord :=
  rainLoop regions (initState RainfallRecord) rows

end GW.Rainfall

namespace GW.Ingest

/-- A data event whose single pseudo-field still contains the comma
delimiter: the shape produced when the parser fails to split the
columns of the uploaded file. -/
def pseudoRow : RawRow := [("well_id,region_id,water_level", "W1;R1;5")]

end GW.Ingest

namespace GW.Readings

/-- A Well document matching the concrete test rows. -/
def sampleWell : Well := ⟨"W1", "R1"⟩

/-- A well-formed reading row for well W1 in region R1. -/
def goodRow : GW.Ingest.RawRow :=
  [("well_id", "W1"), ("region_id", "R1"), ("water_level", "5")]

/-- A reading row whose water level is negative. -/
def negRow : GW.Ingest.RawRow :=
  [("well_id", "W1"), ("region_id", "R1"), ("water_level", "-3")]

end GW.Readings

namespace GW.Rainfall

/-- An active Region named R1. -/
def activeRegion : Region :=
  { region_id := "R1", name := "North Basin", state := "S", critical_level := 10,
    is_active := true, critical_water_level_m := 10,
    aquifer_area_m2 := none, specific_yield := none }

/-- The same Region soft-deleted: `is_active` flipped to false. -/
def inactiveRegion : Region :=
  { region_id := "R1", name := "North Basin", state := "S", critical_level := 10,
    is_active := false, critical_water_level_m := 10,
    aquifer_area_m2 := none, specific_yield := none }

/-- A well-formed rainfall row for region R1. -/
def rainRow : GW.Ingest.RawRow :=
  [("region_id", "R1"), ("amount_mm", "2")]

/-- A rainfall data event whose single pseudo-field contains the comma
delimiter. -/
def rainPseudoRow : GW.Ingest.RawRow :=
  [("region_id,amount_mm", "R1;2")]

end GW.Rainfall

namespace GW.Rainfall

/-- The summary accounting property of a rainfall response: when the
run completes with a 200 summary, the counters balance; the 400
format-error response carries no summary. -/
def rainSumOk : RainResponse → Prop
  | .formatError => True
  | .completed total_rows inserted failed => total_rows = inserted + failed

/-- The record refers to a Region that exists and is active in the
given Region collection. -/
def fromActiveRegion (regions : List Region) (rec : RainfallRecord) : Prop :=
  ∃ r ∈ regions, r.region_id = rec.region_id ∧ r.is_active = true

end GW.Rainfall

namespace GW.Readings

/-- The reading matches some Well document of the given collection
under the composite key built by the controller. -/
def matchesSomeWell (wells : List Well) (rec : WaterReading) : Prop :=
  ∃ w ∈ wells, w.well_id ++ "|" ++ w.region_id = rec.well_id ++ "|" ++ rec.region_id

end GW.Readings

namespace GW.Pipeline

/-- The `status` enum of the Job mongoose schema (Job.model.js). -/
inductive JobStatus where
  | pending
  | processing
  | completed
  | failed
deriving Repr, DecidableEq

/-- Outcome of the `axios.post` call to service B inside the background
block of `triggerPipeline`: the response data on success, or the
normalized error string on any error. -/
inductive CallResult where
  | success (data : String)
  | failure (msg : String)
deriving Repr, DecidableEq

/-- The endpoint selection of `triggerPipeline`: a chain of `if`
statements over the job type, starting from the default
"/jobs/pipeline". -/
def selectEndpoint (jobType : String) : String :=
  let e := "/jobs/pipeline"
  let e := if jobType = "daily_summary" then "/jobs/daily-summary" else e
  let e := if jobType = "training" then "/jobs/train" else e
  if jobType = "forecast" then "/jobs/forecast" else e

/-- Observable events of one `triggerPipeline` request, in program
order: the Job writes (`Job.create` and `Job.findByIdAndUpdate`), the
HTTP response, and the external call. -/
inductive PipelineEvent where
  | createJob (status : JobStatus)
  | respond (statusCode : Nat) (hasJobId : Bool) (hasStatusUrl : Bool)
  | updateJob (status : JobStatus)
  | callServiceB (endpoint : String)
deriving Repr, DecidableEq

/-- The background block of `triggerPipeline` (the un-awaited async
IIFE): set the job to processing, call service B on the selected
endpoint, then set the job to completed on success or to failed on any
caught error. -/
def backgroundEvents (jobType : String) (call : CallResult) :
    List PipelineEvent :=
  [.updateJob .processing,
   .callServiceB (selectEndpoint jobType),
   match call with
   | .success _ => .updateJob .completed
   | .failure _ => .updateJob .failed]

/-- Shallow embedding of `triggerPipeline` as its event trace: create
the Job in pending, send the 202 response carrying the job id and the
status-lookup path, then run the background block. -/
def triggerPipeline (jobType : String) (call : CallResult) :
    List PipelineEvent :=
  [.createJob .pending, .respond 202 true true]
    ++ backgroundEvents jobType call

/-- The Job statuses written by the orchestrator for one job, in write
order: the `pending` of `Job.create` followed by the statuses of the
background block updates. -/
def jobStatusTrace (jobType : String) (call : CallResult) : List JobStatus :=
  .pending :: ((backgroundEvents jobType call).filterMap
    (fun e => match e with
      | .updateJob s => some s
      | _ => none))

/-- The transition diagram claimed by the spec, as a decidable
relation: pending to processing, processing to completed or failed;
terminal states have no outgoing edge. -/
def specAllowed : JobStatus → JobStatus → Bool
  | .pending, .processing => true
  | .processing, .completed => true
  | .processing, .failed => true
  | _, _ => false

/-- An event is part of the background execution (a job-state write or
the external call), as opposed to the request-facing part. -/
def isBackgroundEvent : PipelineEvent → Bool
  | .updateJob _ => true
  | .callServiceB _ => true
  | _ => false

end GW.Pipeline

namespace GW.Extraction

/-- C1: with critical threshold 10 m, engine fallbacks area 1,000,000 m2
and specific yield 0.15, and forecast baseline 10.5 m, a 100,000 L
request computes a drop of 1/1500 m (about 0.00067 m), projects about
10.499 m and is approved, while a 90,000,000 L request computes a drop
of 0.6 m, projects 9.9 m and is denied with the rationale payload. -/
theorem admission_physics_worked_example :
    estimatedDrop exampleRegion 100000 = 1 / 1500
    ∧ (10.499 : ℚ) < 10.5 - 1 / 1500
    ∧ (10 : ℚ) ≤ 10.5 - 1 / 1500
    ∧ (createLog [exampleRegion] (.ok [⟨10.5⟩])
        ⟨some "R1", some 100000, some "irrigation"⟩).1
        = .created ⟨"R1", 100000, some "irrigation"⟩
    ∧ estimatedDrop exampleRegion 90000000 = 3 / 5
    ∧ (10.5 : ℚ) - 3 / 5 = 9.9
    ∧ (createLog [exampleRegion] (.ok [⟨10.5⟩])
        ⟨some "R1", some 90000000, some "irrigation"⟩).1
        = .denied 10.5 (-(3 / 5)) 10 1000000 0.15 := by
  refine ⟨?_, by norm_num, by norm_num, ?_, ?_, by norm_num, ?_⟩
  · norm_num [estimatedDrop, physArea, physSy, jsOrNum, exampleRegion]
  · norm_num [createLog, exampleRegion, estimatedDrop, physArea, physSy, jsOrNum,
      jsStr, truthyStr, truthyNum, jsMin, List.find?]
    simp +decide
  · norm_num [estimatedDrop, physArea, physSy, jsOrNum, exampleRegion]
  · norm_num [createLog, exampleRegion, estimatedDrop, physArea, physSy, jsOrNum,
      jsStr, truthyStr, truthyNum, jsMin, List.find?]
    simp +decide

/-- C3: when the forecast call to service B fails, `createLog` still
returns a decision: the safe-yield check is skipped and, for any
well-formed request whose region resolves, the request is approved
(201) and an ExtractionLog document is persisted. -/
theorem fail_open_on_forecast_error (regions : List Region)
    (req : ExtractReq) (region : Region)
    (h1 : truthyStr req.region_id = true)
    (h2 : truthyNum req.volume_liters = true)
    (h3 : regions.find? (fun r => r.region_id = jsStr req.region_id) = some region) :
    createLog regions .err req
      = (.created ⟨jsStr req.region_id, req.volume_liters.getD 0, req.usage_type⟩,
         some ⟨jsStr req.region_id, req.volume_liters.getD 0, req.usage_type⟩) := by
  simp [createLog, h1, h2, h3]

/-- Witness for C3 at a concrete request and region store. -/
theorem fail_open_on_forecast_error_witness :
    createLog [exampleRegion] .err ⟨some "R1", some 5, some "domestic"⟩
      = (.created ⟨"R1", 5, some "domestic"⟩, some ⟨"R1", 5, some "domestic"⟩) := by
  have h := fail_open_on_forecast_error [exampleRegion]
    ⟨some "R1", some 5, some "domestic"⟩ exampleRegion
    (by decide) (by decide) (by decide)
  simpa [jsStr] using h

/-- C9: an ExtractionLog document is persisted exactly when `createLog`
answers 201 (approval, including the fail-open path); on the 409
denial, as on the thrown 400/404 paths, no log is created. -/
theorem log_persisted_only_on_approval (regions : List Region)
    (fc : ForecastResult) (req : ExtractReq) :
    logOnlyOnCreate (createLog regions fc req) := by
  unfold createLog
  cases fc with
  | err =>
    split
    · simp [logOnlyOnCreate]
    · split
      · simp [logOnlyOnCreate]
      · simp [logOnlyOnCreate]
  | ok forecasts =>
    split
    · simp [logOnlyOnCreate]
    · split
      · simp [logOnlyOnCreate]
      · cases forecasts with
        | nil => simp [logOnlyOnCreate]
        | cons f fs =>
          have hpos : (f :: fs).length > 0 := Nat.succ_pos _
          simp only [hpos, if_true, if_pos]
          split <;> simp [logOnlyOnCreate]

/-- C10: a successful forecast response carrying an empty series behaves
exactly like the unreachable-service case: `createLog` computes the
same response and the same persisted log for every request. -/
theorem empty_forecast_series_is_fail_open (regions : List Region)
    (req : ExtractReq) :
    createLog regions (.ok []) req = createLog regions .err req := by
  simp [createLog]

end GW.Extraction

namespace GW.Readings

open GW.Ingest

/-- Each loop iteration of the readings batch either rejects the row
(failed grows by one) or stages it (the staged list grows by one);
inserted and totalRows are untouched inside the loop. -/
lemma readings_batchStep_count (m : List String)
    (acc : IngestResults × List WaterReading) (row : RawRow) :
    (batchStep m acc row).1.failed + (batchStep m acc row).2.length
      = acc.1.failed + acc.2.length + 1
    ∧ (batchStep m acc row).1.inserted = acc.1.inserted
    ∧ (batchStep m acc row).1.totalRows = acc.1.totalRows := by
  unfold batchStep
  dsimp only
  repeat' split
  all_goals simp
  all_goals try omega

/-- Folding the loop over a batch adds exactly one unit per row to
failed plus the staged count. -/
lemma readings_batchFold_count (m : List String) (rows : List RawRow) :
    ∀ acc : IngestResults × List WaterReading,
    (rows.foldl (batchStep m) acc).1.failed + (rows.foldl (batchStep m) acc).2.length
      = acc.1.failed + acc.2.length + rows.length
    ∧ (rows.foldl (batchStep m) acc).1.inserted = acc.1.inserted
    ∧ (rows.foldl (batchStep m) acc).1.totalRows = acc.1.totalRows := by
  induction rows with
  | nil => intro acc; simp
  | cons r rs ih =>
    intro acc
    simp only [List.foldl_cons, List.length_cons]
    have h1 := readings_batchStep_count m acc r
    have h2 := ih (batchStep m acc r)
    omega

/-- A readings batch flush accounts every row of the batch as inserted
or failed and leaves totalRows unchanged. -/
lemma readings_processBatch_count (wells : List Well) (res : IngestResults)
    (store : List WaterReading) (rows : List RawRow) :
    (processBatch wells res store rows).1.inserted
        + (processBatch wells res store rows).1.failed
      = res.inserted + res.failed + rows.length
    ∧ (processBatch wells res store rows).1.totalRows = res.totalRows := by
  unfold processBatch
  have h := readings_batchFold_count
    ((wells.filter (fun w =>
        (rows.map (fun r => jsStr (getField r "well_id"))).contains w.well_id
        && (rows.map (fun r => jsStr (getField r "region_id"))).contains w.region_id)).map
      (fun w => w.well_id ++ "|" ++ w.region_id)) rows (res, [])
  dsimp only
  split <;> simp_all <;> omega

end GW.Readings

namespace GW.Readings

open GW.Ingest

/-- The readings data handler preserves the accounting invariant:
rows seen so far = inserted + failed + rows pending in the batch. -/
lemma readings_onData_count (wells : List Well) (st : StreamState WaterReading)
    (row : RawRow)
    (h : st.results.totalRows
      = st.results.inserted + st.results.failed + st.batch.length) :
    (onData wells st row).results.totalRows
      = (onData wells st row).results.inserted
        + (onData wells st row).results.failed
        + (onData wells st row).batch.length := by
  unfold onData
  dsimp only
  split
  · simp; omega
  · split
    · have hp := readings_processBatch_count wells
        { st.results with totalRows := st.results.totalRows + 1 }
        st.store (st.batch ++ [row])
      simp at hp ⊢
      omega
    · simp; omega

/-- The accounting invariant holds after any run of the data handler. -/
lemma readings_stream_count (wells : List Well) (rows : List RawRow) :
    ∀ st : StreamState WaterReading,
    st.results.totalRows = st.results.inserted + st.results.failed + st.batch.length →
    (rows.foldl (onData wells) st).results.totalRows
      = (rows.foldl (onData wells) st).results.inserted
        + (rows.foldl (onData wells) st).results.failed
        + (rows.foldl (onData wells) st).batch.length := by
  induction rows with
  | nil => intro st h; simpa using h
  | cons r rs ih =>
    intro st h
    simp only [List.foldl_cons]
    exact ih _ (readings_onData_count wells st r h)

/-- The summary of a completed readings run balances. -/
lemma readings_summary_count (wells : List Well) (rows : List RawRow) :
    (ingestReadingsCSV wells rows).1.totalRows
      = (ingestReadingsCSV wells rows).1.inserted
        + (ingestReadingsCSV wells rows).1.failed := by
  unfold ingestReadingsCSV
  dsimp only
  have hst := readings_stream_count wells rows (initState WaterReading)
    (by simp [initState])
  split
  · have hp := readings_processBatch_count wells
      (rows.foldl (onData wells) (initState WaterReading)).results
      (rows.foldl (onData wells) (initState WaterReading)).store
      (rows.foldl (onData wells) (initState WaterReading)).batch
    omega
  · rename_i hlen
    simp at hlen ⊢
    simp only [hlen, List.length_nil] at hst
    omega

end GW.Readings

namespace GW.Rainfall

open GW.Ingest

/-- Each loop iteration of the rainfall batch either rejects the row or
stages it; inserted and totalRows are untouched inside the loop. -/
lemma rainfall_batchStep_count (m : List String)
    (acc : IngestResults × List RainfallRecord) (row : RawRow) :
    (batchStep m acc row).1.failed + (batchStep m acc row).2.length
      = acc.1.failed + acc.2.length + 1
    ∧ (batchStep m acc row).1.inserted = acc.1.inserted
    ∧ (batchStep m acc row).1.totalRows = acc.1.totalRows := by
  unfold batchStep
  dsimp only
  repeat' split
  all_goals simp
  all_goals try omega

/-- Folding the rainfall loop over a batch adds one unit per row to
failed plus the staged count. -/
lemma rainfall_batchFold_count (m : List String) (rows : List RawRow) :
    ∀ acc : IngestResults × List RainfallRecord,
    (rows.foldl (batchStep m) acc).1.failed + (rows.foldl (batchStep m) acc).2.length
      = acc.1.failed + acc.2.length + rows.length
    ∧ (rows.foldl (batchStep m) acc).1.inserted = acc.1.inserted
    ∧ (rows.foldl (batchStep m) acc).1.totalRows = acc.1.totalRows := by
  induction rows with
  | nil => intro acc; simp
  | cons r rs ih =>
    intro acc
    simp only [List.foldl_cons, List.length_cons]
    have h1 := rainfall_batchStep_count m acc r
    have h2 := ih (batchStep m acc r)
    omega

/-- A rainfall batch flush accounts every row of the batch as inserted
or failed and leaves totalRows unchanged. -/
lemma rainfall_processBatch_count (regions : List Region) (res : IngestResults)
    (store : List RainfallRecord) (rows : List RawRow) :
    (processBatch regions res store rows).1.inserted
        + (processBatch regions res store rows).1.failed
      = res.inserted + res.failed + rows.length
    ∧ (processBatch regions res store rows).1.totalRows = res.totalRows := by
  unfold processBatch
  dsimp only
  split
  · rename_i hnil
    simp at hnil
    simp [hnil]
  · have h := rainfall_batchFold_count
      (((regions.filter (fun r =>
          (rows.map (fun r => jsStr (getField r "region_id"))).contains r.region_id
          && r.is_active)).map Region.region_id)) rows (res, [])
    split <;> simp_all <;> omega

/-- The rainfall streaming loop preserves the accounting invariant and
yields a balanced summary whenever it completes with a 200 response. -/
lemma rainfall_loop_count (regions : List Region) (rows : List RawRow) :
    ∀ st : StreamState RainfallRecord,
    st.results.totalRows = st.results.inserted + st.results.failed + st.batch.length →
    rainSumOk (rainLoop regions st rows).1 := by
  induction rows with
  | nil =>
    intro st h
    unfold rainLoop
    dsimp only
    split
    · have hp := rainfall_processBatch_count regions st.results st.store st.batch
      simp [rainSumOk]
      omega
    · rename_i hlen
      simp at hlen
      simp only [hlen, List.length_nil] at h
      simp [rainSumOk]
      omega
  | cons r rs ih =>
    intro st h
    unfold rainLoop
    dsimp only
    split
    · simp [rainSumOk]
    · split
      · exact ih _ (by simp; omega)
      · split
        · refine ih _ ?_
          have hp := rainfall_processBatch_count regions
            { st.results with totalRows := st.results.totalRows + 1 }
            st.store (st.batch ++ [r])
          simp at hp ⊢
          omega
        · exact ih _ (by simp; omega)

end GW.Rainfall

namespace GW.Rainfall

open GW.Ingest

/-- If every key in the valid set names an active region, each loop
iteration stages only records whose region is active and whose amount
is nonnegative. -/
lemma rainfall_batchStep_store (regions : List Region) (m : List String)
    (hm : ∀ k ∈ m, ∃ r ∈ regions, r.region_id = k ∧ r.is_active = true)
    (acc : IngestResults × List RainfallRecord) (row : RawRow)
    (hacc : ∀ rec ∈ acc.2, fromActiveRegion regions rec ∧ 0 ≤ rec.amount_mm) :
    ∀ rec ∈ (batchStep m acc row).2,
      fromActiveRegion regions rec ∧ 0 ≤ rec.amount_mm := by
  unfold batchStep
  dsimp only
  split
  · simpa using hacc
  case isFalse hmem =>
    split
    · simpa using hacc
    case h_2 v hval =>
      split
      · simpa using hacc
      case isFalse hamt =>
        intro rec hrec
        rcases List.mem_append.mp hrec with hin | hnew
        · exact hacc rec hin
        · rcases List.mem_singleton.mp hnew with rfl
          refine ⟨?_, le_of_not_lt hamt⟩
          have hk : jsStr (getField row "region_id") ∈ m := by
            simpa using hmem
          rcases hm _ hk with ⟨r, hr, hid, hact⟩
          exact ⟨r, hr, hid, hact⟩

end GW.Rainfall

namespace GW.Rainfall

open GW.Ingest

/-- The staged-record property is preserved by folding the row loop
over a whole batch. -/
lemma rainfall_batchFold_store (regions : List Region) (m : List String)
    (hm : ∀ k ∈ m, ∃ r ∈ regions, r.region_id = k ∧ r.is_active = true)
    (rows : List RawRow) :
    ∀ acc : IngestResults × List RainfallRecord,
    (∀ rec ∈ acc.2, fromActiveRegion regions rec ∧ 0 ≤ rec.amount_mm) →
    ∀ rec ∈ (rows.foldl (batchStep m) acc).2,
      fromActiveRegion regions rec ∧ 0 ≤ rec.amount_mm := by
  induction rows with
  | nil => intro acc hacc; simpa using hacc
  | cons r rs ih =>
    intro acc hacc
    simp only [List.foldl_cons]
    exact ih _ (rainfall_batchStep_store regions m hm acc r hacc)

/-- A rainfall batch flush only adds records whose region is active in
the Region collection and whose amount is nonnegative. -/
lemma rainfall_processBatch_store (regions : List Region) (res : IngestResults)
    (store : List RainfallRecord) (rows : List RawRow)
    (hstore : ∀ rec ∈ store, fromActiveRegion regions rec ∧ 0 ≤ rec.amount_mm) :
    ∀ rec ∈ (processBatch regions res store rows).2,
      fromActiveRegion regions rec ∧ 0 ≤ rec.amount_mm := by
  unfold processBatch
  dsimp only
  split
  · simpa using hstore
  · have hm : ∀ k ∈ ((regions.filter (fun r =>
        (rows.map (fun r => jsStr (getField r "region_id"))).contains r.region_id
        && r.is_active)).map Region.region_id),
        ∃ r ∈ regions, r.region_id = k ∧ r.is_active = true := by
      intro k hk
      rcases List.mem_map.mp hk with ⟨r, hr, rfl⟩
      rcases List.mem_filter.mp hr with ⟨hrr, hcond⟩
      refine ⟨r, hrr, rfl, ?_⟩
      exact (Bool.and_eq_true _ _ |>.mp hcond).2
    have hfold := rainfall_batchFold_store regions _ hm rows (res, []) (by simp)
    split
    · intro rec hrec
      rcases List.mem_append.mp hrec with hin | hnew
      · exact hstore rec hin
      · exact hfold rec hnew
    · simpa using hstore

/-- Along the whole streaming loop, every record inserted into the
Rainfall store has an active region and a nonnegative amount. -/
lemma rainfall_loop_store (regions : List Region) (rows : List RawRow) :
    ∀ st : StreamState RainfallRecord,
    (∀ rec ∈ st.store, fromActiveRegion regions rec ∧ 0 ≤ rec.amount_mm) →
    ∀ rec ∈ (rainLoop regions st rows).2,
      fromActiveRegion regions rec ∧ 0 ≤ rec.amount_mm := by
  induction rows with
  | nil =>
    intro st hstore
    unfold rainLoop
    dsimp only
    split
    · exact rainfall_processBatch_store regions st.results st.store st.batch hstore
    · simpa using hstore
  | cons r rs ih =>
    intro st hstore
    unfold rainLoop
    dsimp only
    split
    · simpa using hstore
    · split
      · exact ih _ (by simpa using hstore)
      · split
        · exact ih _ (rainfall_processBatch_store regions _ st.store _ hstore)
        · exact ih _ (by simpa using hstore)

end GW.Rainfall

namespace GW.Ingest

/-- C5: for every CSV ingestion run that completes and returns a
summary (both endpoints), inserted + failed = total rows seen: every
counted row ends up in exactly one of the two buckets.  A rainfall run
aborted by the format check returns no summary and is exempt by
`rainSumOk`. -/
theorem ingestion_summary_balances (wells : List GW.Readings.Well)
    (regions : List Region) (readingRows rainfallRows : List RawRow) :
    (GW.Readings.ingestReadingsCSV wells readingRows).1.totalRows
      = (GW.Readings.ingestReadingsCSV wells readingRows).1.inserted
        + (GW.Readings.ingestReadingsCSV wells readingRows).1.failed
    ∧ GW.Rainfall.rainSumOk (GW.Rainfall.ingestRainfallCSV regions rainfallRows).1 :=
  ⟨GW.Readings.readings_summary_count wells readingRows,
   GW.Rainfall.rainfall_loop_count regions rainfallRows _ (by simp [initState])⟩

end GW.Ingest

namespace GW.Rainfall

open GW.Ingest

/-- C2 (amended): on the rainfall endpoint, a record reaches the
Rainfall store only when its region resolves to an existing Region
with is_active = true at batch-validation time; rows that do not are
counted in failed (see the C5 accounting).  The water-readings
endpoint, by contrast, validates only the (well_id, region_id) pair
against the Well collection and never consults Region activity. -/
theorem rainfall_inactive_region_never_inserted (regions : List Region)
    (rows : List RawRow) (rec : RainfallRecord)
    (hrec : rec ∈ (ingestRainfallCSV regions rows).2) :
    fromActiveRegion regions rec :=
  (rainfall_loop_store regions rows (initState RainfallRecord)
    (by simp [initState]) rec hrec).1

/-- Witness for the amended C2 at a concrete run that inserts one
record for an active region. -/
theorem rainfall_inactive_region_never_inserted_witness :
    (⟨"R1", 2, "csv_upload", none⟩ : RainfallRecord)
        ∈ (ingestRainfallCSV [activeRegion] [rainRow]).2
    ∧ fromActiveRegion [activeRegion] ⟨"R1", 2, "csv_upload", none⟩ := by
  have hstore : (ingestRainfallCSV [activeRegion] [rainRow]).2
      = [⟨"R1", 2, "csv_upload", none⟩] := by
    have hp : jsParseFloat "2"
        = some ((1 : ℚ) * (((2:ℕ):ℚ) + ((0:ℕ):ℚ) / (10:ℚ) ^ (0:ℕ))) := rfl
    have hf1 : getField rainRow "region_id" = some "R1" := rfl
    have hf2 : getField rainRow "amount_mm" = some "2" := rfl
    have hf3 : getField rainRow "source" = none := rfl
    have hf4 : getField rainRow "timestamp" = none := rfl
    have hps : isPseudoRow rainRow = false := rfl
    simp [ingestRainfallCSV, rainLoop, Rainfall.processBatch, Rainfall.batchStep,
      initState, truthyStr, jsStr, jsOrStr, hp, hf1, hf2, hf3, hf4, hps, activeRegion]
    norm_num
  have hmem : (⟨"R1", 2, "csv_upload", none⟩ : RainfallRecord)
      ∈ (ingestRainfallCSV [activeRegion] [rainRow]).2 := by
    rw [hstore]; exact List.mem_singleton.mpr rfl
  exact ⟨hmem,
    rainfall_inactive_region_never_inserted [activeRegion] [rainRow] _ hmem⟩

/-- C6 (amended): on the rainfall endpoint, a row whose amount_mm does
not parse or is negative is rejected (never staged, so every stored
record carries a nonnegative parsed amount).  The water-readings
endpoint rejects only unparseable water_level values: negative levels
are accepted and inserted. -/
theorem rainfall_negative_amount_never_inserted (regions : List Region)
    (rows : List RawRow) (rec : RainfallRecord)
    (hrec : rec ∈ (ingestRainfallCSV regions rows).2) :
    0 ≤ rec.amount_mm :=
  (rainfall_loop_store regions rows (initState RainfallRecord)
    (by simp [initState]) rec hrec).2

/-- Witness for the amended C6 at the same concrete run. -/
theorem rainfall_negative_amount_never_inserted_witness :
    (⟨"R1", 2, "csv_upload", none⟩ : RainfallRecord)
        ∈ (ingestRainfallCSV [activeRegion] [rainRow]).2
    ∧ (0 : ℚ) ≤ (2 : ℚ) := by
  have hstore : (ingestRainfallCSV [activeRegion] [rainRow]).2
      = [⟨"R1", 2, "csv_upload", none⟩] := by
    have hp : jsParseFloat "2"
        = some ((1 : ℚ) * (((2:ℕ):ℚ) + ((0:ℕ):ℚ) / (10:ℚ) ^ (0:ℕ))) := rfl
    have hf1 : getField rainRow "region_id" = some "R1" := rfl
    have hf2 : getField rainRow "amount_mm" = some "2" := rfl
    have hf3 : getField rainRow "source" = none := rfl
    have hf4 : getField rainRow "timestamp" = none := rfl
    have hps : isPseudoRow rainRow = false := rfl
    simp [ingestRainfallCSV, rainLoop, Rainfall.processBatch, Rainfall.batchStep,
      initState, truthyStr, jsStr, jsOrStr, hp, hf1, hf2, hf3, hf4, hps, activeRegion]
    norm_num
  have hmem : (⟨"R1", 2, "csv_upload", none⟩ : RainfallRecord)
      ∈ (ingestRainfallCSV [activeRegion] [rainRow]).2 := by
    rw [hstore]; exact List.mem_singleton.mpr rfl
  exact ⟨hmem,
    rainfall_negative_amount_never_inserted [activeRegion] [rainRow] _ hmem⟩

/-- C4 (amended): on the rainfall endpoint a pseudo-field data event
aborts the run at once with the 400 "CSV Format Error" response and,
when it is the first event (the case produced by a header that fails
to split), nothing is inserted. -/
theorem rainfall_pseudo_field_aborts_run (regions : List Region)
    (row : RawRow) (rest : List RawRow) (h : isPseudoRow row = true) :
    ingestRainfallCSV regions (row :: rest) = (.formatError, []) := by
  unfold ingestRainfallCSV rainLoop
  simp [h, initState]

/-- Witness for the amended C4 at a concrete malformed stream. -/
theorem rainfall_pseudo_field_aborts_run_witness :
    isPseudoRow rainPseudoRow = true
    ∧ ingestRainfallCSV [activeRegion] [rainPseudoRow] = (.formatError, []) :=
  ⟨by decide, rainfall_pseudo_field_aborts_run [activeRegion] rainPseudoRow [] (by decide)⟩

end GW.Rainfall

namespace GW.Readings

open GW.Ingest

/-- C2 counterexample: the readings endpoint inserts a row whose region
is inactive.  With the Region collection holding only the soft-deleted
R1 and the Well collection holding the matching (W1, R1) pair, the
readings run inserts the row and fails none: region activity is never
consulted on this path. -/
theorem readings_inactive_region_row_inserted :
    GW.Rainfall.inactiveRegion.region_id = "R1"
    ∧ GW.Rainfall.inactiveRegion.is_active = false
    ∧ (ingestReadingsCSV [sampleWell] [goodRow]).1.inserted = 1
    ∧ (ingestReadingsCSV [sampleWell] [goodRow]).1.failed = 0
    ∧ (ingestReadingsCSV [sampleWell] [goodRow]).2
        = [⟨"W1", "R1", 5, "csv_upload", none⟩] := by
  refine ⟨rfl, rfl, rfl, rfl, ?_⟩
  have h : (ingestReadingsCSV [sampleWell] [goodRow]).2
      = [⟨"W1", "R1",
          (1 : ℚ) * (((5:ℕ):ℚ) + ((0:ℕ):ℚ) / (10:ℚ) ^ (0:ℕ)),
          "csv_upload", none⟩] := rfl
  rw [h]
  norm_num

/-- C6 counterexample: the readings endpoint accepts a negative water
level.  A row with water_level "-3" for an existing well is inserted,
not counted as a type failure. -/
theorem readings_negative_level_inserted :
    (ingestReadingsCSV [sampleWell] [negRow]).1.inserted = 1
    ∧ (ingestReadingsCSV [sampleWell] [negRow]).1.failed = 0
    ∧ (ingestReadingsCSV [sampleWell] [negRow]).2
        = [⟨"W1", "R1", -3, "csv_upload", none⟩] := by
  refine ⟨rfl, rfl, ?_⟩
  have h : (ingestReadingsCSV [sampleWell] [negRow]).2
      = [⟨"W1", "R1",
          (-1 : ℚ) * (((3:ℕ):ℚ) + ((0:ℕ):ℚ) / (10:ℚ) ^ (0:ℕ)),
          "csv_upload", none⟩] := rfl
  rw [h]
  norm_num

/-- C4 counterexample: the readings endpoint has no pseudo-field check.
A stream starting with a single comma-containing pseudo-field is not
aborted: the run completes with a 200 summary, the pseudo row is
recovered per-row as a missing-columns failure, and the following good
row is inserted. -/
theorem readings_pseudo_field_no_abort :
    isPseudoRow pseudoRow = true
    ∧ (ingestReadingsCSV [sampleWell] [pseudoRow, goodRow]).1.totalRows = 2
    ∧ (ingestReadingsCSV [sampleWell] [pseudoRow, goodRow]).1.inserted = 1
    ∧ (ingestReadingsCSV [sampleWell] [pseudoRow, goodRow]).1.failed = 1
    ∧ (ingestReadingsCSV [sampleWell] [pseudoRow, goodRow]).2
        = [⟨"W1", "R1", 5, "csv_upload", none⟩] := by
  refine ⟨by decide, rfl, rfl, rfl, ?_⟩
  have h : (ingestReadingsCSV [sampleWell] [pseudoRow, goodRow]).2
      = [⟨"W1", "R1",
          (1 : ℚ) * (((5:ℕ):ℚ) + ((0:ℕ):ℚ) / (10:ℚ) ^ (0:ℕ)),
          "csv_upload", none⟩] := rfl
  rw [h]
  norm_num

end GW.Readings

namespace GW.Pipeline

/-- C7: a Job status is always one of the four enum values (enforced by
the JobStatus type), and the statuses written by the orchestrator for
one job follow the linear diagram pending to processing to completed
or failed; the terminal states have no outgoing transition at all. -/
theorem job_status_linear_transitions (jobType : String) (call : CallResult)
    (s : JobStatus) :
    List.Chain' (fun a b => specAllowed a b = true) (jobStatusTrace jobType call)
    ∧ specAllowed .completed s = false
    ∧ specAllowed .failed s = false := by
  refine ⟨?_, by cases s <;> rfl, by cases s <;> rfl⟩
  cases call <;>
    simp [jobStatusTrace, backgroundEvents, specAllowed, List.chain'_cons]

/-- C8: every trigger request first creates the Job in pending and then
sends the 202 response with the job id and status path; everything
after those two events is background work (job-state writes and the
external call), and the first two events do not depend on the outcome
of the background call. -/
theorem trigger_responds_before_background (jobType : String)
    (call altCall : CallResult) :
    triggerPipeline jobType call
      = .createJob .pending :: .respond 202 true true
          :: backgroundEvents jobType call
    ∧ (backgroundEvents jobType call).all isBackgroundEvent = true
    ∧ isBackgroundEvent (.respond 202 true true) = false
    ∧ (triggerPipeline jobType call).take 2
        = (triggerPipeline jobType altCall).take 2 := by
  refine ⟨rfl, ?_, rfl, rfl⟩
  cases call <;> rfl

end GW.Pipeline
